import Mathlib

/-!
# road-registry-api: the registry server and its PowerDNS calls

A shallow embedding of `src/server.js`.

* Request bodies are parsed JSON, so every field is a `JsVal`; a field that
  is absent from the body is `JsVal.undefined`.  JSON numbers are modelled by
  the integers, printed in decimal.
* Rows hold the values the server binds to a statement; the column types and
  defaults of the schema are defined outside `server.js`.
* `pool.query`, `axios` and `uuidv4` are the three effects of the server.  The
  relational store is a record of row lists, every request handed to `axios`
  is appended to a log, and the points at which the database or the provider
  reject are given by oracles in `Env`, so every pattern of failures is
  covered.
* An `async` function is a function from the world to its outcome (a value or
  the thrown error) and the world it leaves; `await` is sequencing.
* `console.error` / `console.log` output is not modelled.
-/

namespace RoadRegistry

/-! ## JavaScript values -/

/-- A value obtained from `JSON.parse`, or `undefined` for an absent field. -/
inductive JsVal where
  | undefined
  | null
  | bool (b : Bool)
  | num (n : Int)
  | str (s : String)
  | arr (xs : List JsVal)
  | obj (fields : List (String × JsVal))

/-- Errors a handler can see: a `TypeError` raised by the language, a rejected
`pool.query`, a rejected `axios` call. -/
inductive JsError where
  | typeError (msg : String)
  | db (msg : String)
  | http (msg : String)
deriving DecidableEq, Repr

/-- The `message` property of an error. -/
def JsError.message : JsError → String
  | .typeError m => m
  | .db m => m
  | .http m => m

namespace JsVal

/-- JavaScript `ToBoolean`: what `!v`, `v || d` and `v && w` test. -/
def truthy : JsVal → Bool
  | undefined => false
  | null => false
  | bool b => b
  | num n => n != 0
  | str s => s != ""
  | arr _ => true
  | obj _ => true

/-- The expression `a || b`. -/
def or (a b : JsVal) : JsVal := if a.truthy then a else b

/-- The expression `Array.isArray(v)`. -/
def isArray : JsVal → Bool
  | arr _ => true
  | _ => false

/-- The expression `v === '<s>'` for a string literal `s`. -/
def strictEqStr : JsVal → String → Bool
  | str t, s => t == s
  | _, _ => false

mutual
/-- JavaScript `ToString`, as applied by a template literal.  A plain object
prints as `[object Object]` unless the body gave it an own `toString` member,
which is not callable and makes the conversion throw. -/
def toStr : JsVal → Except JsError String
  | undefined => .ok "undefined"
  | null => .ok "null"
  | bool b => .ok (if b then "true" else "false")
  | num n => .ok (toString n)
  | str s => .ok s
  | arr xs => joinStr xs
  | obj fs =>
    if fs.any (fun f => f.1 == "toString") then
      .error (.typeError "Cannot convert object to primitive value")
    else .ok "[object Object]"
termination_by structural v => v
/-- The method `Array.prototype.join` with the default separator: `null` and
`undefined` elements print as the empty string. -/
def joinStr : List JsVal → Except JsError String
  | [] => .ok ""
  | x :: rest =>
    match (match x with
           | undefined => Except.ok ""
           | null => Except.ok ""
           | v => toStr v) with
    | .error e => .error e
    | .ok a =>
      match joinStr rest with
      | .error e => .error e
      | .ok b => .ok (if rest.isEmpty then a else a ++ "," ++ b)
termination_by structural xs => xs
end

/-- Property read `v.key` for the keys the server reads (`type`, `name`,
`value`, `ttl`, `priority`), none of which is inherited from a prototype.
`JSON.parse` keeps the last of several members with one key. -/
def getProp (v : JsVal) (key : String) : Except JsError JsVal :=
  match v with
  | undefined =>
    .error (.typeError ("Cannot read properties of undefined (reading " ++ key ++ ")"))
  | null =>
    .error (.typeError ("Cannot read properties of null (reading " ++ key ++ ")"))
  | obj fs =>
    match fs.reverse.find? (fun f => f.1 == key) with
    | some f => .ok f.2
    | none => .ok undefined
  | _ => .ok undefined

/-- The text a scalar is bound as in a query parameter; `none` for the values
that are bound as NULL and for arrays and objects. -/
def sqlText : JsVal → Option String
  | str s => some s
  | num n => some (toString n)
  | bool b => some (if b then "true" else "false")
  | _ => none

/-- The SQL comparison `column = $n` between a stored value and a bound
parameter: NULL equals nothing, scalars compare by their bound text. -/
def sqlEq (stored param : JsVal) : Bool :=
  match stored.sqlText, param.sqlText with
  | some a, some b => a == b
  | _, _ => false

end JsVal

/-! ## Configuration, store, provider requests -/

/-- The expression `process.env.X || dflt`: an unset or empty variable gives
the default. -/
def envOr (v : Option String) (dflt : String) : String :=
  match v with
  | some s => if s = "" then dflt else s
  | none => dflt

/-- The module-level PowerDNS settings. -/
structure Config where
  PDNS_API_URL : String
  PDNS_API_KEY : String

/-- The settings as read at start-up from the two environment variables. -/
def Config.ofEnv (url key : Option String) : Config :=
  { PDNS_API_URL := envOr url "http://localhost:8081/api/v1"
    PDNS_API_KEY := envOr key "blackroad-pdns-api-key-2026" }

/-- A row of table `domains`: the six columns the server binds. -/
structure DomainRow where
  id : String
  domain : JsVal
  registrar : JsVal
  nameservers : JsVal
  status : String
  owner_email : String

/-- A row of table `dns_records`: the seven columns the server binds. -/
structure RecordRow where
  id : String
  domain_id : String
  record_type : JsVal
  name : JsVal
  value : JsVal
  ttl : JsVal
  priority : JsVal

/-- A row of table `deployments`. -/
structure DeploymentRow where
  id : String
  domain_id : String
  repo_url : JsVal
  branch : JsVal
  build_command : JsVal
  deploy_path : JsVal
  status : String

/-- One entry of the `records` array of an rrset. -/
structure RRecord where
  content : JsVal
  disabled : Bool

/-- One entry of the `rrsets` array of a record-apply body. -/
structure RRSet where
  name : String
  type : JsVal
  ttl : JsVal
  changetype : String
  records : List RRecord

/-- The body of a zone-create call. -/
structure ZoneBody where
  name : String
  kind : String
  nameservers : List String

/-- A request handed to `axios`, with the value of its `X-API-Key` header. -/
inductive PdnsRequest where
  | get (url : String) (apiKey : String)
  | post (url : String) (body : ZoneBody) (apiKey : String)
  | patch (url : String) (rrsets : List RRSet) (apiKey : String)

/-- Everything outside a handler that its run depends on: the settings, the
values `uuidv4()` returns, and for the n-th `pool.query` and the n-th `axios`
call whether it rejects (with which message) and what `response.data` is. -/
structure Env where
  config : Config
  uuid : Nat → String
  dbFault : Nat → Option String
  pdnsFault : Nat → Option String
  pdnsData : Nat → JsVal

/-- The state a handler reads and writes: the three tables, the log of
requests handed to `axios` (oldest first), and how many ids and queries have
been used. -/
structure World where
  domains : List DomainRow
  records : List RecordRow
  deployments : List DeploymentRow
  sent : List PdnsRequest
  uuidCalls : Nat
  dbCalls : Nat

/-! ## Async functions -/

/-- An `async` computation run to completion. -/
def Async (α : Type) : Type := World → Except JsError α × World

namespace Async

/-- A computation that returns at once. -/
def ret {α : Type} (a : α) : Async α := fun w => (.ok a, w)

/-- Sequencing (`await`): a thrown error skips the rest, the writes made so
far stay. -/
def andThen {α β : Type} (m : Async α) (f : α → Async β) : Async β := fun w =>
  match m w with
  | (.ok a, w1) => f a w1
  | (.error e, w1) => (.error e, w1)

/-- The statement `try m catch (e) h`. -/
def tryCatch {α : Type} (m : Async α) (h : JsError → Async α) : Async α := fun w =>
  match m w with
  | (.ok a, w1) => (.ok a, w1)
  | (.error e, w1) => h e w1

/-- A synchronous expression that may throw. -/
def lift {α : Type} (r : Except JsError α) : Async α := fun w => (r, w)

end Async

instance : Monad Async where
  pure := Async.ret
  bind := Async.andThen

/-- The call `uuidv4()`. -/
def uuidv4 (env : Env) : Async String := fun w =>
  (.ok (env.uuid w.uuidCalls), { w with uuidCalls := w.uuidCalls + 1 })

/-- The call `pool.query(...)`: it rejects where the oracle says so and leaves
the tables alone, otherwise it runs the statement `q` on the tables. -/
def poolQuery {α : Type} (env : Env) (q : World → α × World) : Async α := fun w =>
  match env.dbFault w.dbCalls with
  | some msg => (.error (.db msg), { w with dbCalls := w.dbCalls + 1 })
  | none =>
    let r := q w
    (.ok r.1, { r.2 with dbCalls := w.dbCalls + 1 })

/-- An `axios` call: the request is logged, then the call resolves with
`response.data` or rejects, as the oracle says for this call. -/
def axiosCall (env : Env) (req : PdnsRequest) : Async JsVal := fun w =>
  let n := w.sent.length
  let w1 := { w with sent := w.sent ++ [req] }
  match env.pdnsFault n with
  | some msg => (.error (.http msg), w1)
  | none => (.ok (env.pdnsData n), w1)

/-! ## PowerDNS integration -/

/-- The callback of `nameservers.map`, over the elements of the array: each
element is printed by the template literal and gets a trailing dot. -/
def mapDot : List JsVal → Except JsError (List String)
  | [] => .ok []
  | ns :: rest =>
    match ns.toStr with
    | .error e => .error e
    | .ok s =>
      match mapDot rest with
      | .error e => .error e
      | .ok ss => .ok ((s ++ ".") :: ss)

/-- The expression `nameservers.map(ns => ns + ".")`: only an array has a
`map` method, every other value makes the call throw a `TypeError`. -/
def nameserversMap : JsVal → Except JsError (List String)
  | .arr xs => mapDot xs
  | .undefined => .error (.typeError "Cannot read properties of undefined (reading map)")
  | .null => .error (.typeError "Cannot read properties of null (reading map)")
  | _ => .error (.typeError "nameservers.map is not a function")

/-- The function `createPowerDNSZone(domain, nameservers)`.  The body object is
built before `axios.post` is entered, so a throw while building it sends
nothing. -/
def createPowerDNSZone (env : Env) (domain nameservers : JsVal) : Async JsVal := do
  let url := env.config.PDNS_API_URL ++ "/servers/localhost/zones"
  let d ← Async.lift domain.toStr
  let nss ← Async.lift (nameserversMap nameservers)
  axiosCall env
    (.post url { name := d ++ ".", kind := "Native", nameservers := nss }
      env.config.PDNS_API_KEY)

/-- A parameter with a default value: the default is taken exactly when the
argument is `undefined`. -/
def defaultArg (arg dflt : JsVal) : JsVal :=
  match arg with
  | .undefined => dflt
  | v => v

/-- The function `addPowerDNSRecord(domain, type, name, value, ttl = 3600)`. -/
def addPowerDNSRecord (env : Env) (domain type name value ttl : JsVal) : Async JsVal := do
  let ttl := defaultArg ttl (.num 3600)
  let d ← Async.lift domain.toStr
  let zoneName := d ++ "."
  let recordName ←
    if name.strictEqStr "@" then pure zoneName
    else do
      let n ← Async.lift name.toStr
      pure (n ++ "." ++ zoneName)
  axiosCall env
    (.patch (env.config.PDNS_API_URL ++ "/servers/localhost/zones/" ++ zoneName)
      [{ name := recordName, type := type, ttl := ttl, changetype := "REPLACE",
         records := [{ content := value, disabled := false }] }]
      env.config.PDNS_API_KEY)

/-! ## Statements run by `pool.query` -/

/-- The statement `INSERT INTO domains ... RETURNING *`. -/
def insertDomain (row : DomainRow) (w : World) : DomainRow × World :=
  (row, { w with domains := w.domains ++ [row] })

/-- The statement `INSERT INTO dns_records ...` (`RETURNING *` or not). -/
def insertRecord (row : RecordRow) (w : World) : RecordRow × World :=
  (row, { w with records := w.records ++ [row] })

/-- The statement `INSERT INTO deployments ... RETURNING *`. -/
def insertDeployment (row : DeploymentRow) (w : World) : DeploymentRow × World :=
  (row, { w with deployments := w.deployments ++ [row] })

/-- The statement `SELECT ... FROM domains WHERE domain = $1`. -/
def selectDomain (name : JsVal) (w : World) : List DomainRow × World :=
  (w.domains.filter (fun r => r.domain.sqlEq name), w)

/-- The statement `SELECT * FROM domains ORDER BY created_at DESC`.  The column
`created_at` is filled by the database; rows are listed latest insert first. -/
def selectAllDomains (w : World) : List DomainRow × World :=
  (w.domains.reverse, w)

/-- The statement `SELECT * FROM dns_records WHERE domain_id = $1 ORDER BY
record_type, name`.  The list is the selected rows; the database's collation
order is not modelled. -/
def selectRecords (domainId : String) (w : World) : List RecordRow × World :=
  (w.records.filter (fun r => r.domain_id == domainId), w)

/-- The statement `DELETE FROM dns_records WHERE id = $1 RETURNING *`. -/
def deleteRecord (recordId : String) (w : World) : List RecordRow × World :=
  (w.records.filter (fun r => r.id == recordId),
   { w with records := w.records.filter (fun r => !(r.id == recordId)) })

/-- The statement `SELECT d.*, dom.domain FROM deployments d JOIN domains dom ON
d.domain_id = dom.id ORDER BY d.deployed_at DESC LIMIT 50`; `deployed_at` is
the time of the insert. -/
def selectDeployments (w : World) : List (DeploymentRow × JsVal) × World :=
  ((w.deployments.reverse.flatMap fun d =>
      (w.domains.filter (fun dom => dom.id == d.domain_id)).map fun dom => (d, dom.domain)).take 50,
   w)

/-! ## Requests and responses -/

/-- The body of `POST /api/domains`. -/
structure CreateDomainBody where
  domain : JsVal
  registrar : JsVal
  nameservers : JsVal
  records : JsVal

/-- The body of `POST /api/domains/:domain/records`. -/
structure AddRecordBody where
  type : JsVal
  name : JsVal
  value : JsVal
  ttl : JsVal
  priority : JsVal

/-- The body of `POST /api/deployments`. -/
structure CreateDeploymentBody where
  domain : JsVal
  repo_url : JsVal
  branch : JsVal
  build_command : JsVal
  deploy_path : JsVal

/-- The JSON documents the server answers with. -/
inductive Body where
  /-- The document `success: false, error: msg`. -/
  | error (msg : String)
  /-- The answer of `GET /health` (its timestamp is not modelled). -/
  | health
  /-- The document `success: true, count, domains`. -/
  | domainList (rows : List DomainRow)
  /-- The document `success: true, domain: (row with records)`. -/
  | domainDetail (row : DomainRow) (records : List RecordRow)
  /-- The document `success: true, message: Domain created successfully, domain: row`. -/
  | domainCreated (row : DomainRow)
  /-- The document `success: true, domain, count, records`. -/
  | recordList (domain : String) (rows : List RecordRow)
  /-- The document `success: true, message: DNS record created, record: row`. -/
  | recordCreated (row : RecordRow)
  /-- The document `success: true, message: DNS record deleted, record: row`. -/
  | recordDeleted (row : RecordRow)
  /-- The document `success: true, message: PowerDNS sync successful, zones`. -/
  | zones (data : JsVal)
  /-- The document `success: true, count, deployments`. -/
  | deploymentList (rows : List (DeploymentRow × JsVal))
  /-- The document `success: true, message: Deployment created, deployment: row`. -/
  | deploymentCreated (row : DeploymentRow)

/-- The field `success` of an answer. -/
def Body.success : Body → Bool
  | .error _ => false
  | _ => true

/-- An HTTP answer: status code and JSON document. -/
structure Response where
  status : Nat
  body : Body

/-- The outer `try ... catch (error)` of every handler: a thrown error becomes
status 500 with the error's message. -/
def respond (m : Async Response) (w : World) : Response × World :=
  match m w with
  | (.ok r, w1) => (r, w1)
  | (.error e, w1) => ({ status := 500, body := .error e.message }, w1)

/-! ## Handlers -/

/-- The loop `for (const record of records)` of `POST /api/domains`. -/
def insertRecords (env : Env) (domainId : String) : List JsVal → Async Unit
  | [] => pure ()
  | record :: rest => do
    let id ← uuidv4 env
    let type ← Async.lift (record.getProp "type")
    let name ← Async.lift (record.getProp "name")
    let value ← Async.lift (record.getProp "value")
    let ttl ← Async.lift (record.getProp "ttl")
    let priority ← Async.lift (record.getProp "priority")
    let _ ← poolQuery env (insertRecord
      { id := id, domain_id := domainId, record_type := type, name := name,
        value := value, ttl := ttl.or (.num 3600), priority := priority.or .null })
    insertRecords env domainId rest

/-- The statement `if (records && Array.isArray(records))` around that loop. -/
def insertRecordsIfGiven (env : Env) (domainId : String) (records : JsVal) : Async Unit :=
  match records.truthy && records.isArray, records with
  | true, .arr rs => insertRecords env domainId rs
  | _, _ => pure ()

/-- The handler of `POST /api/domains`, inside its outer `try`. -/
def handleCreateDomain (env : Env) (body : CreateDomainBody) : Async Response :=
  if !body.domain.truthy then
    pure { status := 400, body := .error "Domain name required" }
  else do
    let domainId ← uuidv4 env
    let row ← poolQuery env (insertDomain
      { id := domainId, domain := body.domain,
        registrar := body.registrar.or (.str "self-managed"),
        nameservers := body.nameservers.or (.arr [.str "ns1.blackroad.io", .str "ns2.blackroad.io"]),
        status := "active", owner_email := "admin@blackroad.io" })
    insertRecordsIfGiven env domainId body.records
    Async.tryCatch
      (do let _ ← createPowerDNSZone env body.domain body.nameservers
          pure ())
      (fun _ => pure ())
    pure { status := 201, body := .domainCreated row }

/-- The handler of `POST /api/domains/:domain/records`, inside its outer `try`. -/
def handleAddRecord (env : Env) (domain : String) (body : AddRecordBody) : Async Response :=
  if !body.type.truthy || !body.name.truthy || !body.value.truthy then
    pure { status := 400, body := .error "type, name, and value are required" }
  else do
    let domainResult ← poolQuery env (selectDomain (.str domain))
    match domainResult with
    | [] => pure { status := 404, body := .error "Domain not found" }
    | dom :: _ => do
      let recordId ← uuidv4 env
      let row ← poolQuery env (insertRecord
        { id := recordId, domain_id := dom.id, record_type := body.type, name := body.name,
          value := body.value, ttl := body.ttl.or (.num 3600),
          priority := body.priority.or .null })
      Async.tryCatch
        (do let _ ← addPowerDNSRecord env (.str domain) body.type body.name body.value body.ttl
            pure ())
        (fun _ => pure ())
      pure { status := 201, body := .recordCreated row }

/-- The handler of `DELETE /api/domains/:domain/records/:recordId`, inside its
outer `try`.  The route parameter `domain` is read and not used. -/
def handleDeleteRecord (env : Env) (_domain : String) (recordId : String) : Async Response := do
  let result ← poolQuery env (deleteRecord recordId)
  match result with
  | [] => pure { status := 404, body := .error "Record not found" }
  | row :: _ => pure { status := 200, body := .recordDeleted row }

/-- The handler of `GET /api/domains`, inside its outer `try`. -/
def handleListDomains (env : Env) : Async Response := do
  let rows ← poolQuery env selectAllDomains
  pure { status := 200, body := .domainList rows }

/-- The handler of `GET /api/domains/:domain`, inside its outer `try`. -/
def handleGetDomain (env : Env) (domain : String) : Async Response := do
  let result ← poolQuery env (selectDomain (.str domain))
  match result with
  | [] => pure { status := 404, body := .error "Domain not found" }
  | dom :: _ => do
    let recs ← poolQuery env (selectRecords dom.id)
    pure { status := 200, body := .domainDetail dom recs }

/-- The handler of `GET /api/domains/:domain/records`, inside its outer `try`. -/
def handleListRecords (env : Env) (domain : String) : Async Response := do
  let result ← poolQuery env (selectDomain (.str domain))
  match result with
  | [] => pure { status := 404, body := .error "Domain not found" }
  | dom :: _ => do
    let recs ← poolQuery env (selectRecords dom.id)
    pure { status := 200, body := .recordList domain recs }

/-- The handler of `POST /api/sync/powerdns`, inside its outer `try`. -/
def handleSync (env : Env) : Async Response := do
  let data ← axiosCall env
    (.get (env.config.PDNS_API_URL ++ "/servers/localhost/zones") env.config.PDNS_API_KEY)
  pure { status := 200, body := .zones data }

/-- The handler of `GET /api/deployments`, inside its outer `try`. -/
def handleListDeployments (env : Env) : Async Response := do
  let rows ← poolQuery env selectDeployments
  pure { status := 200, body := .deploymentList rows }

/-- The handler of `POST /api/deployments`, inside its outer `try`. -/
def handleCreateDeployment (env : Env) (body : CreateDeploymentBody) : Async Response := do
  let result ← poolQuery env (selectDomain body.domain)
  match result with
  | [] => pure { status := 404, body := .error "Domain not found" }
  | dom :: _ => do
    let deploymentId ← uuidv4 env
    let row ← poolQuery env (insertDeployment
      { id := deploymentId, domain_id := dom.id, repo_url := body.repo_url,
        branch := body.branch.or (.str "main"), build_command := body.build_command,
        deploy_path := body.deploy_path, status := "pending" })
    pure { status := 201, body := .deploymentCreated row }

/-- The routes of the server with their parameters and bodies. -/
inductive ApiRequest where
  | health
  | listDomains
  | getDomain (domain : String)
  | createDomain (body : CreateDomainBody)
  | listRecords (domain : String)
  | addRecord (domain : String) (body : AddRecordBody)
  | deleteRecord (domain : String) (recordId : String)
  | syncPowerDNS
  | listDeployments
  | createDeployment (body : CreateDeploymentBody)

/-- One request served to completion: the answer and the world it leaves. -/
def handle (env : Env) (req : ApiRequest) (w : World) : Response × World :=
  match req with
  | .health => ({ status := 200, body := .health }, w)
  | .listDomains => respond (handleListDomains env) w
  | .getDomain d => respond (handleGetDomain env d) w
  | .createDomain b => respond (handleCreateDomain env b) w
  | .listRecords d => respond (handleListRecords env d) w
  | .addRecord d b => respond (handleAddRecord env d b) w
  | .deleteRecord d r => respond (handleDeleteRecord env d r) w
  | .syncPowerDNS => respond (handleSync env) w
  | .listDeployments => respond (handleListDeployments env) w
  | .createDeployment b => respond (handleCreateDeployment env b) w

/-- The requests a handler run has handed to `axios`: what the log gained. -/
def issued (w w1 : World) : List PdnsRequest := w1.sent.drop w.sent.length

/-! ## Vocabulary of the properties -/

/-- The row `POST /api/domains` binds. -/
def newDomainRow (env : Env) (w : World) (body : CreateDomainBody) : DomainRow :=
  { id := env.uuid w.uuidCalls, domain := body.domain,
    registrar := body.registrar.or (.str "self-managed"),
    nameservers := body.nameservers.or (.arr [.str "ns1.blackroad.io", .str "ns2.blackroad.io"]),
    status := "active", owner_email := "admin@blackroad.io" }

/-- The row `POST /api/domains/:domain/records` binds for a record of the
domain with id `domId`. -/
def newRecordRow (env : Env) (w : World) (domId : String) (body : AddRecordBody) : RecordRow :=
  { id := env.uuid w.uuidCalls, domain_id := domId, record_type := body.type, name := body.name,
    value := body.value, ttl := body.ttl.or (.num 3600), priority := body.priority.or .null }

/-- The rrset name for record name `name` in zone `domain`: the apex for `@`,
otherwise the printed name, a dot, and the apex. -/
def IsRecordName (domain : String) (name : JsVal) (nm : String) : Prop :=
  (name = .str "@" ∧ nm = domain ++ ".") ∨
  (name ≠ .str "@" ∧ ∃ s, name.toStr = .ok s ∧ nm = s ++ "." ++ (domain ++ "."))

/-- A record-apply request for the record `body` of `domain`: one rrset, keyed
by the type and name of that record, with changetype REPLACE and the one value
of that record. -/
def IsRecordApply (cfg : Config) (domain : String) (body : AddRecordBody)
    (r : PdnsRequest) : Prop :=
  ∃ nm, IsRecordName domain body.name nm ∧
    r = .patch (cfg.PDNS_API_URL ++ "/servers/localhost/zones/" ++ (domain ++ "."))
          [{ name := nm, type := body.type, ttl := defaultArg body.ttl (.num 3600),
             changetype := "REPLACE",
             records := [{ content := body.value, disabled := false }] }]
          cfg.PDNS_API_KEY

/-- A zone-create request for the domain of `body`. -/
def IsZoneCreate (cfg : Config) (body : CreateDomainBody) (r : PdnsRequest) : Prop :=
  ∃ d nss, body.domain.toStr = .ok d ∧ nameserversMap body.nameservers = .ok nss ∧
    r = .post (cfg.PDNS_API_URL ++ "/servers/localhost/zones")
          { name := d ++ ".", kind := "Native", nameservers := nss } cfg.PDNS_API_KEY

/-- A computation that leaves the request log and the `domains` table as they
are. -/
def Keeps {α : Type} (m : Async α) : Prop :=
  ∀ w, (m w).2.sent = w.sent ∧ (m w).2.domains = w.domains

/-- An entry of the `records` array whose members can be read without a throw. -/
def JsVal.readable : JsVal → Bool
  | .undefined => false
  | .null => false
  | _ => true

/-- Every entry of `records` can be read, when `records` is an array. -/
def recordsReadable : JsVal → Bool
  | .arr rs => rs.all JsVal.readable
  | _ => true

/-- The JSON values JavaScript treats as false: an absent member, `null`,
`false`, the number 0 and the empty string. -/
def Falsy (v : JsVal) : Prop :=
  v = .undefined ∨ v = .null ∨ v = .bool false ∨ v = .num 0 ∨ v = .str ""

/-- A member that is missing or empty: absent, `null`, the empty string, the
empty array or the empty object. -/
def MissingOrEmpty (v : JsVal) : Prop :=
  v = .undefined ∨ v = .null ∨ v = .str "" ∨ v = .arr [] ∨ v = .obj []

/-- The rrsets of a record-apply request; no rrsets for the other requests. -/
def PdnsRequest.rrsets : PdnsRequest → List RRSet
  | .patch _ rs _ => rs
  | _ => []

/-- The merged-value reading of a record-apply: every rrset issued between `w`
and `w1` lists the value of every row that `w1` stores for the domain id with
that type and name. -/
def CarriesAllValues (w w1 : World) (domainId : String) (type name : JsVal) : Prop :=
  ∀ r ∈ issued w w1, ∀ rr ∈ r.rrsets, ∀ row ∈ w1.records,
    row.domain_id = domainId → row.record_type = type → row.name = name →
    row.value ∈ rr.records.map (fun x => x.content)

/-! ## Fixtures -/

/-- An environment in which nothing fails, with the default settings. -/
def envOk : Env :=
  { config := Config.ofEnv none none
    uuid := fun n => "id-" ++ toString n
    dbFault := fun _ => none
    pdnsFault := fun _ => none
    pdnsData := fun _ => .null }

/-- The empty store. -/
def world0 : World :=
  { domains := [], records := [], deployments := [], sent := [], uuidCalls := 0, dbCalls := 0 }

/-- The two default nameservers, as a request would give them explicitly. -/
def nsDefault : JsVal := .arr [.str "ns1.blackroad.io", .str "ns2.blackroad.io"]

/-- The body `domain: example.com` with the given nameservers and records. -/
def exampleCom (nameservers records : JsVal) : CreateDomainBody :=
  { domain := .str "example.com", registrar := .undefined, nameservers := nameservers,
    records := records }

/-- The body `domain: name` with the given nameservers and nothing else. -/
def domainBody (name : String) (nameservers : JsVal) : CreateDomainBody :=
  { domain := .str name, registrar := .undefined, nameservers := nameservers,
    records := .undefined }

/-- The body of a record-add request with no priority. -/
def recordBody (type name value ttl : JsVal) : AddRecordBody :=
  { type := type, name := name, value := value, ttl := ttl, priority := .undefined }

/-- The `records` array with the single record `A @ 1.2.3.4` of ttl 300. -/
def oneARecord : JsVal :=
  .arr [.obj [("type", .str "A"), ("name", .str "@"), ("value", .str "1.2.3.4"),
    ("ttl", .num 300)]]

/-- The row of `example.com` in `worldExample`. -/
def exampleRow : DomainRow :=
  { id := "id-0", domain := .str "example.com", registrar := .str "self-managed",
    nameservers := nsDefault, status := "active", owner_email := "admin@blackroad.io" }

/-- The world after `example.com` was created with explicit nameservers. -/
def worldExample : World :=
  (handle envOk (.createDomain (exampleCom nsDefault .undefined)) world0).2

/-- The world `worldExample` after `MX @ mail1.example.com` was added. -/
def worldMx1 : World :=
  (handle envOk (.addRecord "example.com"
      (recordBody (.str "MX") (.str "@") (.str "mail1.example.com") .undefined))
    worldExample).2

/-- The world `worldMx1` after `MX @ mail2.example.com` was added. -/
def worldMx2 : World :=
  (handle envOk (.addRecord "example.com"
      (recordBody (.str "MX") (.str "@") (.str "mail2.example.com") .undefined))
    worldMx1).2

/-- The world after `a.example` and `b.example` were created and one A record
was added to `b.example`. -/
def worldTwo : World :=
  (handle envOk (.addRecord "b.example"
      (recordBody (.str "A") (.str "www") (.str "192.0.2.7") .undefined))
    (handle envOk (.createDomain (domainBody "b.example" nsDefault))
      (handle envOk (.createDomain (domainBody "a.example" nsDefault)) world0).2).2).2

/-! ## Lemmas on the async layer -/

theorem Async.bind_def {α β : Type} (m : Async α) (f : α → Async β) :
    (m >>= f) = Async.andThen m f := rfl

theorem Async.pure_def {α : Type} (a : α) : (pure a : Async α) = Async.ret a := rfl

/-- A `try` whose `catch` only logs ends normally in the world its body left. -/
theorem swallow_run {α : Type} (m : Async α) (w : World) :
    Async.tryCatch (Async.andThen m (fun _ => Async.ret ())) (fun _ => Async.ret ()) w =
      (.ok (), (m w).2) := by
  simp only [Async.tryCatch, Async.andThen, Async.ret]
  rcases h : m w with ⟨r, w1⟩
  cases r <;> simp

theorem respond_world (m : Async Response) (w : World) : (respond m w).2 = (m w).2 := by
  simp only [respond]
  rcases hr : m w with ⟨r, w1⟩
  cases r <;> rfl

theorem respond_ok {m : Async Response} {w : World} {r : Response} (h : (m w).1 = .ok r) :
    (respond m w).1 = r := by
  simp only [respond]
  rcases hr : m w with ⟨x, w1⟩
  rw [hr] at h
  simp only [] at h
  subst h
  rfl

theorem issued_of_append {w w1 : World} {l : List PdnsRequest} (h : w1.sent = w.sent ++ l) :
    issued w w1 = l := by
  simp [issued, h]

theorem issued_of_eq {w w1 : World} (h : w1.sent = w.sent) : issued w w1 = [] := by
  simp [issued, h]

theorem strictEqStr_iff (n : JsVal) (s : String) : n.strictEqStr s = true ↔ n = .str s := by
  cases n <;> simp [JsVal.strictEqStr]

theorem truthy_eq_false_iff (v : JsVal) : v.truthy = false ↔ Falsy v := by
  cases v <;> simp [JsVal.truthy, Falsy]

theorem truthy_of_not_falsy {v : JsVal} (h : ¬ Falsy v) : v.truthy = true := by
  cases hv : v.truthy with
  | true => rfl
  | false => exact absurd ((truthy_eq_false_iff v).1 hv) h

/-! ## Lemmas on the PowerDNS functions -/

theorem mapDot_strings (ns : List String) :
    mapDot (ns.map JsVal.str) = .ok (ns.map fun s => s ++ ".") := by
  induction ns with
  | nil => rfl
  | cons s rest ih => simp [mapDot, JsVal.toStr, ih]

/-- When the record name prints, `addPowerDNSRecord` hands exactly one request
to `axios`, whatever `axios` then does. -/
theorem addPowerDNSRecord_sends (env : Env) (d : String) (t n v ttl : JsVal) (w : World)
    (nm : String) (hnm : IsRecordName d n nm) :
    (addPowerDNSRecord env (.str d) t n v ttl w).2 =
      { w with sent := w.sent ++
          [.patch (env.config.PDNS_API_URL ++ "/servers/localhost/zones/" ++ (d ++ "."))
            [{ name := nm, type := t, ttl := defaultArg ttl (.num 3600), changetype := "REPLACE",
               records := [{ content := v, disabled := false }] }]
            env.config.PDNS_API_KEY] } := by
  rcases hnm with ⟨h, rfl⟩ | ⟨h, s, hs, rfl⟩
  · subst h
    simp [addPowerDNSRecord, Async.bind_def, Async.pure_def, Async.andThen, Async.lift,
      Async.ret, axiosCall, JsVal.toStr, JsVal.strictEqStr]
    split <;> rfl
  · have h2 : n.strictEqStr "@" = false := by
      rw [Bool.eq_false_iff]; intro hc; exact h ((strictEqStr_iff n "@").1 hc)
    simp [addPowerDNSRecord, Async.bind_def, Async.pure_def, Async.andThen, Async.lift,
      Async.ret, axiosCall, JsVal.toStr, h2, hs]
    split <;> rfl

/-- The function `addPowerDNSRecord` either sends nothing (the record name does
not print) or sends the one request of `addPowerDNSRecord_sends`. -/
theorem addPowerDNSRecord_world (env : Env) (d : String) (t n v ttl : JsVal) (w : World) :
    (addPowerDNSRecord env (.str d) t n v ttl w).2 = w ∨
    ∃ nm, IsRecordName d n nm ∧
      (addPowerDNSRecord env (.str d) t n v ttl w).2 =
        { w with sent := w.sent ++
            [.patch (env.config.PDNS_API_URL ++ "/servers/localhost/zones/" ++ (d ++ "."))
              [{ name := nm, type := t, ttl := defaultArg ttl (.num 3600),
                 changetype := "REPLACE", records := [{ content := v, disabled := false }] }]
              env.config.PDNS_API_KEY] } := by
  by_cases h : n = .str "@"
  · exact Or.inr ⟨d ++ ".", Or.inl ⟨h, rfl⟩,
      addPowerDNSRecord_sends env d t n v ttl w _ (Or.inl ⟨h, rfl⟩)⟩
  · cases hs : n.toStr with
    | error e =>
      left
      have h2 : n.strictEqStr "@" = false := by
        rw [Bool.eq_false_iff]; intro hc; exact h ((strictEqStr_iff n "@").1 hc)
      simp [addPowerDNSRecord, Async.bind_def, Async.pure_def, Async.andThen, Async.lift,
        Async.ret, JsVal.toStr, h2, hs]
    | ok s =>
      exact Or.inr ⟨s ++ "." ++ (d ++ "."), Or.inr ⟨h, s, hs, rfl⟩,
        addPowerDNSRecord_sends env d t n v ttl w _ (Or.inr ⟨h, s, hs, rfl⟩)⟩

/-- The function `createPowerDNSZone` either sends nothing (building the body
threw) or sends the one zone-create request. -/
theorem createPowerDNSZone_world (env : Env) (domain nameservers : JsVal) (w : World) :
    (createPowerDNSZone env domain nameservers w).2 = w ∨
    ∃ d nss, domain.toStr = .ok d ∧ nameserversMap nameservers = .ok nss ∧
      (createPowerDNSZone env domain nameservers w).2 =
        { w with sent := w.sent ++ [.post (env.config.PDNS_API_URL ++ "/servers/localhost/zones")
            { name := d ++ ".", kind := "Native", nameservers := nss }
            env.config.PDNS_API_KEY] } := by
  cases hd : domain.toStr with
  | error e =>
    left
    simp [createPowerDNSZone, Async.bind_def, Async.andThen, Async.lift, hd]
  | ok d =>
    cases hn : nameserversMap nameservers with
    | error e =>
      left
      simp [createPowerDNSZone, Async.bind_def, Async.andThen, Async.lift, hd, hn]
    | ok nss =>
      right
      refine ⟨d, nss, rfl, rfl, ?_⟩
      simp [createPowerDNSZone, Async.bind_def, Async.andThen, Async.lift, hd, hn, axiosCall]
      split <;> rfl

/-! ## Lemmas on what a handler leaves untouched -/

theorem keeps_ret {α : Type} (a : α) : Keeps (Async.ret a) := fun _ => ⟨rfl, rfl⟩

theorem keeps_lift {α : Type} (r : Except JsError α) : Keeps (Async.lift r) :=
  fun _ => ⟨rfl, rfl⟩

theorem keeps_uuidv4 (env : Env) : Keeps (uuidv4 env) := fun _ => ⟨rfl, rfl⟩

theorem keeps_andThen {α β : Type} {m : Async α} {f : α → Async β}
    (hm : Keeps m) (hf : ∀ a, Keeps (f a)) : Keeps (m.andThen f) := by
  intro w
  have h1 := hm w
  simp only [Async.andThen]
  rcases h : m w with ⟨r, w1⟩
  rw [h] at h1
  cases r with
  | error e => exact h1
  | ok a =>
    have h2 := hf a w1
    exact ⟨h2.1.trans h1.1, h2.2.trans h1.2⟩

theorem keeps_poolQuery {α : Type} (env : Env) (q : World → α × World)
    (hq : ∀ w, (q w).2.sent = w.sent ∧ (q w).2.domains = w.domains) :
    Keeps (poolQuery env q) := by
  intro w
  simp only [poolQuery]
  cases env.dbFault w.dbCalls with
  | some msg => exact ⟨rfl, rfl⟩
  | none => exact hq w

theorem keeps_insertRecord (env : Env) (row : RecordRow) :
    Keeps (poolQuery env (insertRecord row)) :=
  keeps_poolQuery env _ fun _ => ⟨rfl, rfl⟩

theorem keeps_insertRecords (env : Env) (id : String) (recs : List JsVal) :
    Keeps (insertRecords env id recs) := by
  induction recs with
  | nil => exact keeps_ret ()
  | cons r rest ih =>
    simp only [insertRecords, Async.bind_def]
    refine keeps_andThen (keeps_uuidv4 env) fun _ => ?_
    refine keeps_andThen (keeps_lift _) fun _ => ?_
    refine keeps_andThen (keeps_lift _) fun _ => ?_
    refine keeps_andThen (keeps_lift _) fun _ => ?_
    refine keeps_andThen (keeps_lift _) fun _ => ?_
    refine keeps_andThen (keeps_lift _) fun _ => ?_
    exact keeps_andThen (keeps_insertRecord env _) fun _ => ih

theorem keeps_insertRecordsIfGiven (env : Env) (id : String) (records : JsVal) :
    Keeps (insertRecordsIfGiven env id records) := by
  unfold insertRecordsIfGiven
  split
  · exact keeps_insertRecords env id _
  · exact keeps_ret ()

theorem respond_keeps {m : Async Response} (hm : Keeps m) (w : World) :
    (respond m w).2.sent = w.sent := by
  have h := (hm w).1
  simp only [respond]
  rcases hr : m w with ⟨r, w1⟩
  rw [hr] at h
  cases r <;> exact h

theorem keeps_listDomains (env : Env) : Keeps (handleListDomains env) :=
  keeps_andThen (keeps_poolQuery env _ fun _ => ⟨rfl, rfl⟩) fun _ => keeps_ret _

theorem keeps_getDomain (env : Env) (d : String) : Keeps (handleGetDomain env d) := by
  refine keeps_andThen (keeps_poolQuery env _ fun _ => ⟨rfl, rfl⟩) fun rows => ?_
  cases rows with
  | nil => exact keeps_ret _
  | cons dom rest =>
    exact keeps_andThen (keeps_poolQuery env _ fun _ => ⟨rfl, rfl⟩) fun _ => keeps_ret _

theorem keeps_listRecords (env : Env) (d : String) : Keeps (handleListRecords env d) := by
  refine keeps_andThen (keeps_poolQuery env _ fun _ => ⟨rfl, rfl⟩) fun rows => ?_
  cases rows with
  | nil => exact keeps_ret _
  | cons dom rest =>
    exact keeps_andThen (keeps_poolQuery env _ fun _ => ⟨rfl, rfl⟩) fun _ => keeps_ret _

theorem keeps_deleteRecord (env : Env) (d r : String) : Keeps (handleDeleteRecord env d r) := by
  refine keeps_andThen (keeps_poolQuery env _ fun _ => ⟨rfl, rfl⟩) fun rows => ?_
  cases rows with
  | nil => exact keeps_ret _
  | cons row rest => exact keeps_ret _

theorem keeps_listDeployments (env : Env) : Keeps (handleListDeployments env) :=
  keeps_andThen (keeps_poolQuery env _ fun _ => ⟨rfl, rfl⟩) fun _ => keeps_ret _

theorem keeps_createDeployment (env : Env) (b : CreateDeploymentBody) :
    Keeps (handleCreateDeployment env b) := by
  refine keeps_andThen (keeps_poolQuery env _ fun _ => ⟨rfl, rfl⟩) fun rows => ?_
  cases rows with
  | nil => exact keeps_ret _
  | cons dom rest =>
    refine keeps_andThen (keeps_uuidv4 env) fun _ => ?_
    exact keeps_andThen (keeps_poolQuery env _ fun _ => ⟨rfl, rfl⟩) fun _ => keeps_ret _

theorem handleSync_sent (env : Env) (w : World) :
    (handleSync env w).2.sent =
      w.sent ++ [.get (env.config.PDNS_API_URL ++ "/servers/localhost/zones")
        env.config.PDNS_API_KEY] := by
  simp only [handleSync, Async.bind_def, Async.andThen, axiosCall]
  cases env.pdnsFault w.sent.length <;> rfl

/-! ## Lemmas on the requests of the two mutating handlers -/

theorem handleCreateDomain_sent (env : Env) (body : CreateDomainBody) (w : World) :
    (handleCreateDomain env body w).2.sent = w.sent ∨
    ∃ r, IsZoneCreate env.config body r ∧
      (handleCreateDomain env body w).2.sent = w.sent ++ [r] := by
  unfold handleCreateDomain
  split
  · left; rfl
  · simp only [Async.bind_def, Async.pure_def]
    simp only [Async.andThen, uuidv4, poolQuery]
    cases env.dbFault w.dbCalls with
    | some msg => left; rfl
    | none =>
      simp only [insertDomain]
      generalize hw1 : ({ domains := w.domains ++ _, records := w.records, deployments := w.deployments, sent := w.sent, uuidCalls := w.uuidCalls + 1, dbCalls := w.dbCalls + 1 } : World) = wA
      have hA : wA.sent = w.sent := by rw [← hw1]
      have hk := (keeps_insertRecordsIfGiven env (env.uuid w.uuidCalls) body.records wA).1
      rcases hB : insertRecordsIfGiven env (env.uuid w.uuidCalls) body.records wA with ⟨r, wB⟩
      rw [hB] at hk
      cases r with
      | error e => left; simp only []; exact hk.trans hA
      | ok u =>
        simp only [swallow_run, Async.ret]
        rcases createPowerDNSZone_world env body.domain body.nameservers wB with h | ⟨d, nss, h1, h2, h3⟩
        · left; rw [h]; exact hk.trans hA
        · right
          refine ⟨_, ⟨d, nss, h1, h2, rfl⟩, ?_⟩
          rw [h3]; simp only []; rw [hk, hA]

theorem handleAddRecord_sent (env : Env) (domain : String) (body : AddRecordBody) (w : World) :
    (handleAddRecord env domain body w).2.sent = w.sent ∨
    ∃ r, IsRecordApply env.config domain body r ∧
      (handleAddRecord env domain body w).2.sent = w.sent ++ [r] := by
  unfold handleAddRecord
  split
  · left; rfl
  · simp only [Async.bind_def, Async.pure_def]
    simp only [Async.andThen, poolQuery]
    cases env.dbFault w.dbCalls with
    | some msg => left; rfl
    | none =>
      simp only [selectDomain]
      cases w.domains.filter (fun r => r.domain.sqlEq (.str domain)) with
      | nil => left; rfl
      | cons dom rest =>
        simp only [uuidv4, Async.andThen, poolQuery]
        cases env.dbFault (w.dbCalls + 1) with
        | some msg => left; rfl
        | none =>
          simp only [insertRecord, swallow_run, Async.ret]
          generalize hw1 : ({ domains := w.domains, records := w.records ++ _, deployments := w.deployments, sent := w.sent, uuidCalls := w.uuidCalls + 1, dbCalls := w.dbCalls + 1 + 1 } : World) = wA
          have hA : wA.sent = w.sent := by rw [← hw1]
          rcases addPowerDNSRecord_world env domain body.type body.name body.value body.ttl wA with h | ⟨nm, h1, h2⟩
          · left; rw [h]; exact hA
          · right
            refine ⟨_, ⟨nm, h1, rfl⟩, ?_⟩
            rw [h2]; simp only []; rw [hA]

/-! ## Lemmas on accepted and rejected requests -/

theorem handleAddRecord_accept (env : Env) (domain : String) (body : AddRecordBody) (w : World)
    (dom : DomainRow) (rest : List DomainRow)
    (ht : body.type.truthy = true) (hn : body.name.truthy = true) (hv : body.value.truthy = true)
    (hsel : w.domains.filter (fun r => r.domain.sqlEq (.str domain)) = dom :: rest)
    (h0 : env.dbFault w.dbCalls = none) (h1 : env.dbFault (w.dbCalls + 1) = none) :
    handleAddRecord env domain body w =
      (.ok { status := 201, body := .recordCreated (newRecordRow env w dom.id body) },
       (addPowerDNSRecord env (.str domain) body.type body.name body.value body.ttl
          { w with records := w.records ++ [newRecordRow env w dom.id body],
                   uuidCalls := w.uuidCalls + 1, dbCalls := w.dbCalls + 2 }).2) := by
  simp only [handleAddRecord, ht, hn, hv, Bool.not_true, Bool.or_self, Bool.false_eq_true, if_false]
  simp only [Async.bind_def, Async.pure_def]
  rw [Async.andThen]
  simp [poolQuery, h0, selectDomain, hsel]
  simp only [Async.andThen, uuidv4, poolQuery, h1, insertRecord, swallow_run, Async.ret, newRecordRow]

theorem getProp_readable {r : JsVal} (h : r.readable = true) (k : String) :
    ∃ v, r.getProp k = .ok v := by
  cases r with
  | undefined => simp [JsVal.readable] at h
  | null => simp [JsVal.readable] at h
  | obj fs =>
    simp only [JsVal.getProp]
    split <;> exact ⟨_, rfl⟩
  | bool b => exact ⟨_, rfl⟩
  | num b => exact ⟨_, rfl⟩
  | str b => exact ⟨_, rfl⟩
  | arr b => exact ⟨_, rfl⟩

theorem insertRecords_ok (env : Env) (hdb : ∀ n, env.dbFault n = none) (id : String)
    (recs : List JsVal) (hr : recs.all JsVal.readable = true) (w : World) :
    (insertRecords env id recs w).1 = .ok () := by
  induction recs generalizing w with
  | nil => rfl
  | cons r rest ih =>
    simp only [List.all_cons, Bool.and_eq_true] at hr
    obtain ⟨v1, h1⟩ := getProp_readable hr.1 "type"
    obtain ⟨v2, h2⟩ := getProp_readable hr.1 "name"
    obtain ⟨v3, h3⟩ := getProp_readable hr.1 "value"
    obtain ⟨v4, h4⟩ := getProp_readable hr.1 "ttl"
    obtain ⟨v5, h5⟩ := getProp_readable hr.1 "priority"
    simp only [insertRecords, Async.bind_def, Async.andThen, uuidv4, Async.lift, h1, h2, h3, h4, h5,
      poolQuery, hdb]
    exact ih hr.2 _

theorem insertRecordsIfGiven_ok (env : Env) (hdb : ∀ n, env.dbFault n = none) (id : String)
    (records : JsVal) (hr : recordsReadable records = true) (w : World) :
    (insertRecordsIfGiven env id records w).1 = .ok () := by
  cases records with
  | arr rs =>
    simp only [insertRecordsIfGiven, JsVal.truthy, JsVal.isArray, Bool.and_self]
    exact insertRecords_ok env hdb id rs hr w
  | undefined => rfl
  | null => rfl
  | bool b => simp [insertRecordsIfGiven, JsVal.isArray, Async.pure_def, Async.ret]
  | num n => simp [insertRecordsIfGiven, JsVal.isArray, Async.pure_def, Async.ret]
  | str s => simp [insertRecordsIfGiven, JsVal.isArray, Async.pure_def, Async.ret]
  | obj fs => rfl

theorem handleCreateDomain_accept (env : Env) (hdb : ∀ n, env.dbFault n = none)
    (body : CreateDomainBody) (hd : body.domain.truthy = true)
    (hr : recordsReadable body.records = true) (w : World) :
    (handleCreateDomain env body w).1 =
      .ok { status := 201, body := .domainCreated (newDomainRow env w body) } ∧
    (handleCreateDomain env body w).2.domains = w.domains ++ [newDomainRow env w body] := by
  simp only [handleCreateDomain, hd, Bool.not_true, Bool.false_eq_true, if_false]
  simp only [Async.bind_def, Async.pure_def]
  simp only [Async.andThen, uuidv4, poolQuery, hdb, insertDomain]
  generalize hw1 : ({ domains := w.domains ++ _, records := w.records, deployments := w.deployments, sent := w.sent, uuidCalls := w.uuidCalls + 1, dbCalls := w.dbCalls + 1 } : World) = wA
  have hA : wA.domains = w.domains ++ [newDomainRow env w body] := by rw [← hw1]; rfl
  have hk := (keeps_insertRecordsIfGiven env (env.uuid w.uuidCalls) body.records wA).2
  have hok := insertRecordsIfGiven_ok env hdb (env.uuid w.uuidCalls) body.records hr wA
  rcases hB : insertRecordsIfGiven env (env.uuid w.uuidCalls) body.records wA with ⟨r, wB⟩
  rw [hB] at hk hok
  simp only [] at hok hk
  subst hok
  simp only [swallow_run, Async.ret]
  refine ⟨rfl, ?_⟩
  rcases createPowerDNSZone_world env body.domain body.nameservers wB with h | ⟨d, nss, _, _, h3⟩
  · rw [h]; exact hk.trans hA
  · rw [h3]; exact hk.trans hA

theorem handleAddRecord_status (env : Env) (domain : String) (body : AddRecordBody) (w : World)
    (ht : body.type.truthy = true) (hn : body.name.truthy = true)
    (hv : body.value.truthy = true) :
    (respond (handleAddRecord env domain body) w).1.status ≠ 400 := by
  simp only [handleAddRecord, ht, hn, hv, Bool.not_true, Bool.or_self, Bool.false_eq_true, if_false]
  simp only [Async.bind_def, Async.pure_def]
  simp only [respond, Async.andThen, poolQuery]
  cases env.dbFault w.dbCalls with
  | some msg => simp
  | none =>
    simp only [selectDomain]
    cases w.domains.filter (fun r => r.domain.sqlEq (.str domain)) with
    | nil => simp [Async.ret]
    | cons dom rest =>
      simp only [uuidv4, Async.andThen, poolQuery]
      cases env.dbFault (w.dbCalls + 1) with
      | some msg => simp
      | none => simp [swallow_run, Async.ret]

theorem handleCreateDomain_status (env : Env) (body : CreateDomainBody) (w : World)
    (hd : body.domain.truthy = true) :
    (respond (handleCreateDomain env body) w).1.status ≠ 400 := by
  simp only [handleCreateDomain, hd, Bool.not_true, Bool.false_eq_true, if_false]
  simp only [Async.bind_def, Async.pure_def]
  simp only [respond, Async.andThen, uuidv4, poolQuery]
  cases env.dbFault w.dbCalls with
  | some msg => simp
  | none =>
    simp only [insertDomain]
    generalize ({ domains := w.domains ++ _, records := w.records, deployments := w.deployments, sent := w.sent, uuidCalls := w.uuidCalls + 1, dbCalls := w.dbCalls + 1 } : World) = wA
    rcases insertRecordsIfGiven env (env.uuid w.uuidCalls) body.records wA with ⟨r, wB⟩
    cases r with
    | error e => simp
    | ok u => simp [swallow_run, Async.ret]

/-! ## The record-apply and zone-create bodies -/

/-- Claim C1: for every domain `d`, type `t`, name `n`, value `v` and ttl `k`,
`addPowerDNSRecord(d, t, n, v, k)` hands `axios` exactly one request, a PATCH
of the zone `d.` whose body is the one rrset with name `d.` for `n = @` and
`n.d.` otherwise, type `t`, ttl `k`, changetype REPLACE and the one record
`content: v, disabled: false`. -/
theorem addPowerDNSRecord_request_body (env : Env) (w : World) (d : String) (t : JsVal)
    (n : String) (v : JsVal) (k : Int) :
    (addPowerDNSRecord env (.str d) t (.str n) v (.num k) w).2.sent =
      w.sent ++ [.patch (env.config.PDNS_API_URL ++ "/servers/localhost/zones/" ++ (d ++ "."))
        [{ name := if n = "@" then d ++ "." else n ++ "." ++ d ++ "."
           type := t, ttl := .num k, changetype := "REPLACE"
           records := [{ content := v, disabled := false }] }]
        env.config.PDNS_API_KEY] := by
  by_cases h : n = "@"
  · simp [addPowerDNSRecord, Async.bind_def, Async.pure_def, Async.andThen, Async.lift,
      Async.ret, axiosCall, defaultArg, JsVal.toStr, JsVal.strictEqStr, h]
    split <;> rfl
  · simp [addPowerDNSRecord, Async.bind_def, Async.pure_def, Async.andThen, Async.lift,
      Async.ret, axiosCall, defaultArg, JsVal.toStr, JsVal.strictEqStr, h, String.append_assoc]
    split <;> rfl

/-- Claim C2: for every domain `d` and list of nameserver hostnames `ns`,
`createPowerDNSZone(d, ns)` hands `axios` exactly one request, a POST whose
body has name `d.`, kind Native, and the nameservers of `ns` in order, each
with a trailing dot. -/
theorem createPowerDNSZone_request_body (env : Env) (w : World) (d : String)
    (ns : List String) :
    (createPowerDNSZone env (.str d) (.arr (ns.map JsVal.str)) w).2.sent =
      w.sent ++ [.post (env.config.PDNS_API_URL ++ "/servers/localhost/zones")
        { name := d ++ ".", kind := "Native", nameservers := ns.map fun s => s ++ "." }
        env.config.PDNS_API_KEY] := by
  simp [createPowerDNSZone, Async.bind_def, Async.andThen, Async.lift, axiosCall, JsVal.toStr,
    nameserversMap, mapDot_strings]
  split <;> rfl

/-! ## Values sent for a key that already holds values -/

/-- Claim C3, refuted as stated: after `MX @ mail1.example.com` and then
`MX @ mail2.example.com` were added to `example.com`, the store holds both
values under the key (MX, @), and the record-apply request of the second add
lists `mail2.example.com` only. -/
theorem addRecord_drops_sibling_values :
    worldMx2.records.map (fun r => (r.domain_id, r.record_type, r.name, r.value)) =
      [("id-0", .str "MX", .str "@", .str "mail1.example.com"),
       ("id-0", .str "MX", .str "@", .str "mail2.example.com")] ∧
    issued worldMx1 worldMx2 =
      [.patch "http://localhost:8081/api/v1/servers/localhost/zones/example.com."
        [{ name := "example.com.", type := .str "MX", ttl := .num 3600, changetype := "REPLACE",
           records := [{ content := .str "mail2.example.com", disabled := false }] }]
        "blackroad-pdns-api-key-2026"] ∧
    ¬ CarriesAllValues worldMx1 worldMx2 "id-0" (.str "MX") (.str "@") := by
  refine ⟨rfl, rfl, ?_⟩
  intro h
  have h1 := h (.patch "http://localhost:8081/api/v1/servers/localhost/zones/example.com."
        [{ name := "example.com.", type := .str "MX", ttl := .num 3600, changetype := "REPLACE",
           records := [{ content := .str "mail2.example.com", disabled := false }] }]
        "blackroad-pdns-api-key-2026") (List.mem_singleton.2 rfl)
      { name := "example.com.", type := .str "MX", ttl := .num 3600, changetype := "REPLACE",
           records := [{ content := .str "mail2.example.com", disabled := false }] }
      (List.mem_singleton.2 rfl)
      { id := "id-1", domain_id := "id-0", record_type := .str "MX", name := .str "@",
        value := .str "mail1.example.com", ttl := .num 3600, priority := .null }
      (List.mem_cons_self _ _) rfl rfl rfl
  simp at h1

/-- Claim C3, amended: when a record-add request is accepted (type, name and
value truthy, the domain exists, both store statements succeed, the record
name prints), the handler issues exactly one record-apply request, and its
records list is the single entry `content: value, disabled: false` of the
record being added, whatever rows the store already holds; the new row is
appended to the store. -/
theorem addRecord_sends_only_new_value (env : Env) (w : World) (domain : String)
    (body : AddRecordBody) (dom : DomainRow) (rest : List DomainRow) (nm : String)
    (ht : body.type.truthy = true) (hn : body.name.truthy = true)
    (hv : body.value.truthy = true)
    (hsel : w.domains.filter (fun r => r.domain.sqlEq (.str domain)) = dom :: rest)
    (h0 : env.dbFault w.dbCalls = none) (h1 : env.dbFault (w.dbCalls + 1) = none)
    (hnm : IsRecordName domain body.name nm) :
    issued w (handle env (.addRecord domain body) w).2 =
      [.patch (env.config.PDNS_API_URL ++ "/servers/localhost/zones/" ++ (domain ++ "."))
        [{ name := nm, type := body.type, ttl := defaultArg body.ttl (.num 3600),
           changetype := "REPLACE",
           records := [{ content := body.value, disabled := false }] }]
        env.config.PDNS_API_KEY] ∧
    (handle env (.addRecord domain body) w).2.records =
      w.records ++ [newRecordRow env w dom.id body] := by
  simp only [handle, respond_world]
  rw [handleAddRecord_accept env domain body w dom rest ht hn hv hsel h0 h1]
  simp only []
  rw [addPowerDNSRecord_sends env domain body.type body.name body.value body.ttl _ nm hnm]
  exact ⟨issued_of_append rfl, rfl⟩

/-- Witness of `addRecord_sends_only_new_value`: the second MX record of
`example.com`. -/
theorem addRecord_sends_only_new_value_witness :
    worldMx1.domains.filter (fun r => r.domain.sqlEq (.str "example.com")) = [exampleRow] ∧
    IsRecordName "example.com" (.str "@") "example.com." ∧
    issued worldMx1 (handle envOk (.addRecord "example.com"
        (recordBody (.str "MX") (.str "@") (.str "mail2.example.com") .undefined)) worldMx1).2 =
      [.patch (envOk.config.PDNS_API_URL ++ "/servers/localhost/zones/" ++ ("example.com" ++ "."))
        [{ name := "example.com.", type := .str "MX", ttl := defaultArg .undefined (.num 3600),
           changetype := "REPLACE",
           records := [{ content := .str "mail2.example.com", disabled := false }] }]
        envOk.config.PDNS_API_KEY] ∧
    (handle envOk (.addRecord "example.com"
        (recordBody (.str "MX") (.str "@") (.str "mail2.example.com") .undefined)) worldMx1).2.records =
      worldMx1.records ++ [newRecordRow envOk worldMx1 "id-0"
        (recordBody (.str "MX") (.str "@") (.str "mail2.example.com") .undefined)] :=
  ⟨rfl, Or.inl ⟨rfl, rfl⟩,
   addRecord_sends_only_new_value envOk worldMx1 "example.com"
     (recordBody (.str "MX") (.str "@") (.str "mail2.example.com") .undefined)
     exampleRow [] "example.com." rfl rfl rfl rfl rfl rfl (Or.inl ⟨rfl, rfl⟩)⟩

/-! ## Provider failures and the mutation -/

/-- Claim C4: let no store statement fail.  Whatever the provider does (`pf`
says which `axios` calls reject, `pd` what the others return), a domain-create
request with a truthy domain and readable records is answered 201 with success
true and the inserted row, which is appended to `domains`; and a record-add
request with truthy type, name and value on an existing domain is answered 201
with success true and the inserted row, which is appended to `dns_records`. -/
theorem provider_failure_never_blocks (env : Env) (w : World) (pf : Nat → Option String)
    (pd : Nat → JsVal) (hdb : ∀ n, env.dbFault n = none) :
    (∀ body : CreateDomainBody, body.domain.truthy = true →
      recordsReadable body.records = true →
      (handle { env with pdnsFault := pf, pdnsData := pd } (.createDomain body) w).1 =
        { status := 201, body := .domainCreated (newDomainRow env w body) } ∧
      (Body.domainCreated (newDomainRow env w body)).success = true ∧
      (handle { env with pdnsFault := pf, pdnsData := pd } (.createDomain body) w).2.domains =
        w.domains ++ [newDomainRow env w body]) ∧
    (∀ (domain : String) (body : AddRecordBody) (dom : DomainRow) (rest : List DomainRow),
      body.type.truthy = true → body.name.truthy = true → body.value.truthy = true →
      w.domains.filter (fun r => r.domain.sqlEq (.str domain)) = dom :: rest →
      (handle { env with pdnsFault := pf, pdnsData := pd } (.addRecord domain body) w).1 =
        { status := 201, body := .recordCreated (newRecordRow env w dom.id body) } ∧
      (Body.recordCreated (newRecordRow env w dom.id body)).success = true ∧
      (handle { env with pdnsFault := pf, pdnsData := pd } (.addRecord domain body) w).2.records =
        w.records ++ [newRecordRow env w dom.id body]) := by
  constructor
  · intro body hd hr
    have h := handleCreateDomain_accept { env with pdnsFault := pf, pdnsData := pd } hdb body
      hd hr w
    refine ⟨?_, rfl, ?_⟩
    · simp only [handle]; exact respond_ok h.1
    · simp only [handle, respond_world]; exact h.2
  · intro domain body dom rest ht hn hv hsel
    have h := handleAddRecord_accept { env with pdnsFault := pf, pdnsData := pd } domain body w
      dom rest ht hn hv hsel (hdb _) (hdb _)
    refine ⟨?_, rfl, ?_⟩
    · simp only [handle]; exact respond_ok (by rw [h]; rfl)
    · simp only [handle, respond_world]
      rw [h]
      simp only []
      rcases addPowerDNSRecord_world { env with pdnsFault := pf, pdnsData := pd } domain
        body.type body.name body.value body.ttl
        { w with records := w.records ++ [newRecordRow env w dom.id body],
                 uuidCalls := w.uuidCalls + 1, dbCalls := w.dbCalls + 2 } with h1 | ⟨nm, _, h2⟩
      · exact congrArg World.records h1
      · exact congrArg World.records h2

/-- Witness of `provider_failure_never_blocks`: with a provider that refuses
every connection, creating `example.com` in the empty store and adding
`MX @ mail1.example.com` to the store that holds `example.com`. -/
theorem provider_failure_never_blocks_witness :
    (∀ n, envOk.dbFault n = none) ∧
    ((handle { envOk with pdnsFault := fun _ => some "connect ECONNREFUSED",
                          pdnsData := fun _ => .null }
        (.createDomain (exampleCom nsDefault oneARecord)) world0).1 =
        { status := 201,
          body := .domainCreated (newDomainRow envOk world0 (exampleCom nsDefault oneARecord)) } ∧
      (Body.domainCreated (newDomainRow envOk world0 (exampleCom nsDefault oneARecord))).success
        = true ∧
      (handle { envOk with pdnsFault := fun _ => some "connect ECONNREFUSED",
                           pdnsData := fun _ => .null }
        (.createDomain (exampleCom nsDefault oneARecord)) world0).2.domains =
        world0.domains ++ [newDomainRow envOk world0 (exampleCom nsDefault oneARecord)]) ∧
    ((handle { envOk with pdnsFault := fun _ => some "connect ECONNREFUSED",
                          pdnsData := fun _ => .null }
        (.addRecord "example.com"
          (recordBody (.str "MX") (.str "@") (.str "mail1.example.com") .undefined))
        worldExample).1 =
        { status := 201,
          body := .recordCreated (newRecordRow envOk worldExample exampleRow.id
            (recordBody (.str "MX") (.str "@") (.str "mail1.example.com") .undefined)) } ∧
      (Body.recordCreated (newRecordRow envOk worldExample exampleRow.id
        (recordBody (.str "MX") (.str "@") (.str "mail1.example.com") .undefined))).success
        = true ∧
      (handle { envOk with pdnsFault := fun _ => some "connect ECONNREFUSED",
                           pdnsData := fun _ => .null }
        (.addRecord "example.com"
          (recordBody (.str "MX") (.str "@") (.str "mail1.example.com") .undefined))
        worldExample).2.records =
        worldExample.records ++ [newRecordRow envOk worldExample exampleRow.id
          (recordBody (.str "MX") (.str "@") (.str "mail1.example.com") .undefined)]) :=
  ⟨fun _ => rfl,
   (provider_failure_never_blocks envOk world0 (fun _ => some "connect ECONNREFUSED")
      (fun _ => .null) (fun _ => rfl)).1 (exampleCom nsDefault oneARecord) rfl rfl,
   (provider_failure_never_blocks envOk worldExample (fun _ => some "connect ECONNREFUSED")
      (fun _ => .null) (fun _ => rfl)).2 "example.com"
      (recordBody (.str "MX") (.str "@") (.str "mail1.example.com") .undefined)
      exampleRow [] rfl rfl rfl rfl⟩

/-! ## What domain creation sends -/

/-- Claim C5, evaluated at `domain: example.com` with no nameservers member:
the answer is 201, the stored row carries the two default nameservers, and no
request at all is handed to `axios`, so no zone-create request carries them. -/
theorem createDomain_default_nameservers_not_sent :
    (handle envOk (.createDomain (exampleCom .undefined .undefined)) world0).1.status = 201 ∧
    (handle envOk (.createDomain (exampleCom .undefined .undefined)) world0).2.domains.map
        (fun d => (d.domain, d.nameservers)) =
      [(.str "example.com", .arr [.str "ns1.blackroad.io", .str "ns2.blackroad.io"])] ∧
    issued world0 (handle envOk (.createDomain (exampleCom .undefined .undefined)) world0).2 = [] :=
  ⟨rfl, rfl, rfl⟩

/-- Claim C6, evaluated at `example.com` created with the record
`A @ 1.2.3.4` of ttl 300: the record is stored, and with explicit nameservers
the only request handed to `axios` is the zone-create, no record-apply; with no
nameservers member nothing is handed to `axios`. -/
theorem createDomain_records_not_applied :
    (handle envOk (.createDomain (exampleCom nsDefault oneARecord)) world0).1.status = 201 ∧
    (handle envOk (.createDomain (exampleCom nsDefault oneARecord)) world0).2.records.map
        (fun r => (r.record_type, r.name, r.value, r.ttl)) =
      [(.str "A", .str "@", .str "1.2.3.4", .num 300)] ∧
    issued world0 (handle envOk (.createDomain (exampleCom nsDefault oneARecord)) world0).2 =
      [.post "http://localhost:8081/api/v1/servers/localhost/zones"
        { name := "example.com.", kind := "Native",
          nameservers := ["ns1.blackroad.io.", "ns2.blackroad.io."] }
        "blackroad-pdns-api-key-2026"] ∧
    issued world0 (handle envOk (.createDomain (exampleCom .undefined oneARecord)) world0).2 = [] :=
  ⟨rfl, rfl, rfl, rfl⟩

/-! ## Every request the server hands to the provider -/

/-- Claim C7: serving any request of the API only appends to the request log,
and what it appends is nothing, or one zone-create request (domain creation),
or one record-apply request whose single rrset is keyed by the type and name of
the record being added, has changetype REPLACE and the one record of that
value (record add), or the one GET that lists the zones (sync).  The
delete-record route appends nothing. -/
theorem provider_requests_additive (env : Env) (w : World) (req : ApiRequest) :
    ((handle env req w).2.sent = w.sent ++ issued w (handle env req w).2 ∧
     (issued w (handle env req w).2 = [] ∨
      (∃ body r, req = .createDomain body ∧ IsZoneCreate env.config body r ∧
        issued w (handle env req w).2 = [r]) ∨
      (∃ domain body r, req = .addRecord domain body ∧
        IsRecordApply env.config domain body r ∧ issued w (handle env req w).2 = [r]) ∨
      (req = .syncPowerDNS ∧
        issued w (handle env req w).2 =
          [.get (env.config.PDNS_API_URL ++ "/servers/localhost/zones")
            env.config.PDNS_API_KEY]))) ∧
    ∀ domain recordId, issued w (handle env (.deleteRecord domain recordId) w).2 = [] := by
  have key : ∀ {w1 : World}, w1.sent = w.sent →
      w1.sent = w.sent ++ issued w w1 ∧ issued w w1 = [] := by
    intro w1 h
    rw [issued_of_eq h]; simpa using h
  have key2 : ∀ {w1 : World} {r : PdnsRequest}, w1.sent = w.sent ++ [r] →
      w1.sent = w.sent ++ issued w w1 ∧ issued w w1 = [r] := by
    intro w1 r h
    rw [issued_of_append h]; exact ⟨h, rfl⟩
  refine ⟨?_, fun d r => issued_of_eq (respond_keeps (keeps_deleteRecord env d r) w)⟩
  cases req with
  | health => exact ⟨(key rfl).1, Or.inl (key rfl).2⟩
  | listDomains =>
    have h := key (respond_keeps (keeps_listDomains env) w)
    exact ⟨h.1, Or.inl h.2⟩
  | getDomain d =>
    have h := key (respond_keeps (keeps_getDomain env d) w)
    exact ⟨h.1, Or.inl h.2⟩
  | listRecords d =>
    have h := key (respond_keeps (keeps_listRecords env d) w)
    exact ⟨h.1, Or.inl h.2⟩
  | deleteRecord d r =>
    have h := key (respond_keeps (keeps_deleteRecord env d r) w)
    exact ⟨h.1, Or.inl h.2⟩
  | listDeployments =>
    have h := key (respond_keeps (keeps_listDeployments env) w)
    exact ⟨h.1, Or.inl h.2⟩
  | createDeployment b =>
    have h := key (respond_keeps (keeps_createDeployment env b) w)
    exact ⟨h.1, Or.inl h.2⟩
  | syncPowerDNS =>
    have h0 := handleSync_sent env w
    rw [← respond_world] at h0
    have h := key2 h0
    exact ⟨h.1, Or.inr (Or.inr (Or.inr ⟨rfl, h.2⟩))⟩
  | createDomain b =>
    simp only [handle, respond_world]
    rcases handleCreateDomain_sent env b w with h0 | ⟨r, hr, h0⟩
    · have h := key h0
      exact ⟨h.1, Or.inl h.2⟩
    · have h := key2 h0
      exact ⟨h.1, Or.inr (Or.inl ⟨b, r, rfl, hr, h.2⟩)⟩
  | addRecord d b =>
    simp only [handle, respond_world]
    rcases handleAddRecord_sent env d b w with h0 | ⟨r, hr, h0⟩
    · have h := key h0
      exact ⟨h.1, Or.inl h.2⟩
    · have h := key2 h0
      exact ⟨h.1, Or.inr (Or.inr (Or.inl ⟨d, b, r, rfl, hr, h.2⟩))⟩

/-! ## Rejected requests -/

/-- Claim C8, refuted as stated: a record-add request whose type, name and
value are all present and none of them empty, with the number 0 as value, is
rejected with status 400 and `type, name, and value are required`. -/
theorem addRecord_rejects_zero_value :
    ¬ MissingOrEmpty (.str "TXT") ∧ ¬ MissingOrEmpty (.str "@") ∧ ¬ MissingOrEmpty (.num 0) ∧
    handle envOk (.addRecord "example.com" (recordBody (.str "TXT") (.str "@") (.num 0) .undefined))
        worldExample =
      ({ status := 400, body := .error "type, name, and value are required" }, worldExample) := by
  refine ⟨?_, ?_, ?_, rfl⟩ <;> simp [MissingOrEmpty]

/-- Claim C8, amended: the record-add route answers 400 with
`type, name, and value are required`, leaving store and request log as they
were, when type, name or value is falsy (absent, null, false, 0 or the empty
string), and answers with another status otherwise; the domain-create route
answers 400 with `Domain name required`, leaving store and request log as they
were, when the domain member is falsy, and with another status otherwise. -/
theorem rejects_iff_falsy (env : Env) (w : World) :
    (∀ (domain : String) (body : AddRecordBody),
      ((Falsy body.type ∨ Falsy body.name ∨ Falsy body.value) ∧
        handle env (.addRecord domain body) w =
          ({ status := 400, body := .error "type, name, and value are required" }, w)) ∨
      (¬ (Falsy body.type ∨ Falsy body.name ∨ Falsy body.value) ∧
        (handle env (.addRecord domain body) w).1.status ≠ 400)) ∧
    (∀ body : CreateDomainBody,
      (Falsy body.domain ∧
        handle env (.createDomain body) w =
          ({ status := 400, body := .error "Domain name required" }, w)) ∨
      (¬ Falsy body.domain ∧ (handle env (.createDomain body) w).1.status ≠ 400)) := by
  constructor
  · intro domain body
    by_cases h : Falsy body.type ∨ Falsy body.name ∨ Falsy body.value
    · left
      refine ⟨h, ?_⟩
      have hc : (!body.type.truthy || !body.name.truthy || !body.value.truthy) = true := by
        rcases h with h | h | h <;> simp [(truthy_eq_false_iff _).2 h]
      simp only [handle, handleAddRecord, hc, if_true]
      rfl
    · right
      refine ⟨h, ?_⟩
      simp only [not_or] at h
      exact handleAddRecord_status env domain body w (truthy_of_not_falsy h.1)
        (truthy_of_not_falsy h.2.1) (truthy_of_not_falsy h.2.2)
  · intro body
    by_cases h : Falsy body.domain
    · left
      refine ⟨h, ?_⟩
      simp only [handle, handleCreateDomain, (truthy_eq_false_iff _).2 h, Bool.not_false, if_true]
      rfl
    · right
      exact ⟨h, handleCreateDomain_status env body w (truthy_of_not_falsy h)⟩

/-! ## The two TTL defaults -/

/-- Claim C9, evaluated at a record-add request with `ttl: 0`: the request is
accepted, the stored row has ttl 3600, and the record-apply request has
ttl 0. -/
theorem addRecord_ttl_zero_mismatch :
    (handle envOk (.addRecord "example.com"
        (recordBody (.str "A") (.str "@") (.str "1.2.3.4") (.num 0))) worldExample).1.status = 201 ∧
    (handle envOk (.addRecord "example.com"
        (recordBody (.str "A") (.str "@") (.str "1.2.3.4") (.num 0))) worldExample).2.records.map
        (fun r => r.ttl) = [.num 3600] ∧
    issued worldExample (handle envOk (.addRecord "example.com"
        (recordBody (.str "A") (.str "@") (.str "1.2.3.4") (.num 0))) worldExample).2 =
      [.patch "http://localhost:8081/api/v1/servers/localhost/zones/example.com."
        [{ name := "example.com.", type := .str "A", ttl := .num 0, changetype := "REPLACE",
           records := [{ content := .str "1.2.3.4", disabled := false }] }]
        "blackroad-pdns-api-key-2026"] :=
  ⟨rfl, rfl, rfl⟩

/-! ## Deleting a record through another domain -/

/-- Claim C10, evaluated in a store where the only record, `id-2`, belongs to
`b.example` (domain id `id-1`): the delete route called for `a.example`, and
called for a domain that does not exist, answers 200 and removes it. -/
theorem deleteRecord_ignores_domain :
    worldTwo.domains.map (fun d => (d.id, d.domain)) =
      [("id-0", .str "a.example"), ("id-1", .str "b.example")] ∧
    worldTwo.records.map (fun r => (r.id, r.domain_id)) = [("id-2", "id-1")] ∧
    (handle envOk (.deleteRecord "a.example" "id-2") worldTwo).1.status = 200 ∧
    (handle envOk (.deleteRecord "a.example" "id-2") worldTwo).2.records = [] ∧
    (handle envOk (.deleteRecord "missing.example" "id-2") worldTwo).1.status = 200 ∧
    (handle envOk (.deleteRecord "missing.example" "id-2") worldTwo).2.records = [] :=
  ⟨rfl, rfl, rfl, rfl, rfl, rfl⟩

end RoadRegistry
